import Mathlib

/-!
Verification of the SOUL spreadsheet ingestion and reconciliation pipeline.

The definitions below are a shallow embedding of `app/utils/excel_handler.py`
(`ExcelHandler._process_sheet`, `ExcelHandler.import_from_excel_multiple_sheets`)
and of the import endpoint `importar_registros` in `app/api/routes/excel.py`,
together with the configuration list `ESTUDIOS_DISPONIBLES` from `app/config.py`.

Spreadsheet cells are modelled as `Option String` (`none` is a NaN/empty cell,
`some s` the cell's string rendering); a sheet is its raw header row plus the
data rows; the persistent store visible to the request's session is a list of
records, and a per-record creation failure (a constraint violation raised by
the store despite the pre-check) is modelled by an oracle returning the raised
message, `none` meaning the insert succeeds.
-/

set_option linter.unusedVariables false

namespace SOUL

/-- The enumerated program list from `app/config.py` (`ESTUDIOS_DISPONIBLES`). -/
def ESTUDIOS_DISPONIBLES : List String :=
  ["Desarrollo Web", "Desarrollo Móvil", "Bases de Datos", "Redes y Seguridad",
   "Diseño Gráfico", "Marketing Digital", "Administración de Empresas",
   "Contabilidad", "Electricidad", "Sistemas"]

/-- A candidate record produced by the importer: the four-field dict built in
`_process_sheet` (also the four domain fields of the persisted model). -/
structure Registro where
  nombres : String
  apellidos : String
  email : String
  estudio : String
  deriving Repr, DecidableEq

/-- A spreadsheet cell after pandas reads it: `none` models NaN (an empty cell),
`some s` the cell's string rendering. -/
abbrev Cell := Option String

/-- One sheet of the uploaded file: the raw header row and the data rows, each
row's cells positionally aligned with the headers. -/
structure Sheet where
  headers : List String
  rows : List (List Cell)
  deriving Repr, DecidableEq

/-- Python `str.strip()`: surrounding whitespace removed. Modelled over the
string's character list so that concrete instances evaluate inside the kernel. -/
def pyStrip (s : String) : String :=
  ⟨((s.data.dropWhile Char.isWhitespace).reverse.dropWhile Char.isWhitespace).reverse⟩

/-- Python `str.lower()`. -/
def pyLower (s : String) : String :=
  ⟨s.data.map Char.toLower⟩

/-- Python `c in s` for a single character. -/
def pyContains (s : String) (c : Char) : Bool :=
  s.data.contains c

/-- Synonyms accepted for the `nombres` column (`column_mapping` in `_process_sheet`). -/
def synNombres : List String := ["nombres", "nombre", "first_name", "firstname"]

/-- Synonyms accepted for the `apellidos` column. -/
def synApellidos : List String := ["apellidos", "apellido", "last_name", "lastname"]

/-- Synonyms accepted for the `email` column. -/
def synEmail : List String := ["email", "correo", "e-mail", "mail"]

/-- Synonyms accepted for the `estudio` column. -/
def synEstudio : List String := ["estudio", "estudios", "carrera", "programa", "course"]

/-- The `column_mapping` table of `_process_sheet`, in its declared field order. -/
def columnMapping : List (String × List String) :=
  [("nombres", synNombres), ("apellidos", synApellidos),
   ("email", synEmail), ("estudio", synEstudio)]

/-- Header normalization: `df.columns.str.strip().str.lower()`. -/
def normHeader (h : String) : String := pyLower (pyStrip h)

/-- The inner loop over `df.columns`: the first normalized column name that is in
the synonym list (`for col in df.columns: if col in possible_names: ...; break`). -/
def findMappedCol : List String → List String → Option String
  | [], _ => none
  | c :: rest, possibleNames =>
    if possibleNames.contains c then some c else findMappedCol rest possibleNames

/-- `mapped_columns`: canonical field name, paired with the normalized column
name that supplies it, for every field that found a match. -/
def mappedColumns (headers : List String) : List (String × String) :=
  columnMapping.filterMap
    (fun p => (findMappedCol (headers.map normHeader) p.2).map (fun c => (p.1, c)))

/-- `required_fields` of `_process_sheet`. -/
def requiredFields : List String := ["nombres", "apellidos", "email", "estudio"]

/-- `missing_fields`: the required fields that found no column. -/
def missingFields (headers : List String) : List String :=
  requiredFields.filter (fun f => ((mappedColumns headers).lookup f).isNone)

/-- Position of the column a canonical field is read from after the rename: the
first header whose normalized name is in the synonym list. -/
def colIndex (headers : List String) (syns : List String) : Option Nat :=
  (headers.map normHeader).findIdx? (fun c => syns.contains c)

/-- A cell of a row by column position; a position past the row's end reads as NaN. -/
def getCell (row : List Cell) (i : Nat) : Cell := (row.get? i).join

/-- The error string for an `estudio` outside the enumerated list. -/
def estudioErrMsg (sheetName : String) (idx : Nat) (estudio : String) : String :=
  "Hoja '" ++ sheetName ++ "', Fila " ++ toString (idx + 2) ++ ": Estudio '" ++
    estudio ++ "' no válido. Debe ser: " ++ String.intercalate ", " ESTUDIOS_DISPONIBLES

/-- The error string for a structurally invalid email. -/
def emailErrMsg (sheetName : String) (idx : Nat) (email : String) : String :=
  "Hoja '" ++ sheetName ++ "', Fila " ++ toString (idx + 2) ++ ": Email '" ++
    email ++ "' no válido"

/-- The single sheet-level error when required columns are missing. -/
def missingMsg (sheetName : String) (headers : List String) : String :=
  "Hoja '" ++ sheetName ++ "': Faltan columnas: " ++
    String.intercalate ", " (missingFields headers)

/-- The outcome a requested sheet gets when it is absent from the file. -/
def sheetMissingMsg (sheetName : String) : String :=
  "La hoja '" ++ sheetName ++ "' no existe en el archivo"

/-- What one data row contributes. `none`: the row is removed by
`dropna(subset=required_fields)` (some required cell is NaN) and contributes
nothing. `Sum.inr`: the row's single error string (the loop `continue`s).
`Sum.inl`: the row's validated record. -/
def rowOutcome (sheetName : String) (iN iA iE iS : Nat) (idx : Nat) (row : List Cell) :
    Option (Registro ⊕ String) :=
  match getCell row iN, getCell row iA, getCell row iE, getCell row iS with
  | some vN, some vA, some vE, some vS =>
    let estudio := pyStrip vS
    if estudio ∉ ESTUDIOS_DISPONIBLES then
      some (Sum.inr (estudioErrMsg sheetName idx estudio))
    else
      let email := pyLower (pyStrip vE)
      if pyContains email '@' = false ∨ pyContains email '.' = false then
        some (Sum.inr (emailErrMsg sheetName idx email))
      else
        some (Sum.inl { nombres := pyStrip vN, apellidos := pyStrip vA,
                        email := email, estudio := estudio })
  | _, _, _, _ => none

/-- The record part of a row outcome. -/
def recOf : Option (Registro ⊕ String) → Option Registro
  | some (Sum.inl r) => some r
  | _ => none

/-- The error part of a row outcome. -/
def errOf : Option (Registro ⊕ String) → Option String
  | some (Sum.inr e) => some e
  | _ => none

/-- A row that `dropna(subset=required_fields)` removes: some required cell is NaN. -/
def droppedRow (iN iA iE iS : Nat) (row : List Cell) : Bool :=
  (getCell row iN).isNone || (getCell row iA).isNone ||
  (getCell row iE).isNone || (getCell row iS).isNone

/-- The row loop of `_process_sheet`, carrying the 0-based dataframe index `idx`
(the display row number is `idx + 2`). Each row appends its record to the valid
list, or its error string to the error list, or nothing. -/
def processRowsAux (sheetName : String) (iN iA iE iS : Nat) :
    Nat → List (List Cell) → List Registro × List String
  | _, [] => ([], [])
  | idx, row :: rest =>
    let acc := processRowsAux sheetName iN iA iE iS (idx + 1) rest
    match rowOutcome sheetName iN iA iE iS idx row with
    | some (Sum.inl r) => (r :: acc.1, acc.2)
    | some (Sum.inr e) => (acc.1, e :: acc.2)
    | none => acc

/-- The row loop started at dataframe index 0. -/
def processRows (sheetName : String) (iN iA iE iS : Nat) (rows : List (List Cell)) :
    List Registro × List String :=
  processRowsAux sheetName iN iA iE iS 0 rows

/-- `_process_sheet` on a sheet that was read: resolve the four columns, report
missing columns as the single sheet-level error, otherwise validate row by row. -/
def processSheet (sheetName : String) (sheet : Sheet) : List Registro × List String :=
  match colIndex sheet.headers synNombres, colIndex sheet.headers synApellidos,
        colIndex sheet.headers synEmail, colIndex sheet.headers synEstudio with
  | some iN, some iA, some iE, some iS => processRows sheetName iN iA iE iS sheet.rows
  | _, _, _, _ => ([], [missingMsg sheetName sheet.headers])

/-- Python dict assignment `results[k] = v` on an insertion-ordered association
list: replace the existing key's value in place, otherwise append. -/
def dictInsert {α : Type} (d : List (String × α)) (k : String) (v : α) : List (String × α) :=
  if (d.map Prod.fst).contains k then
    d.map (fun p => if p.1 = k then (k, v) else p)
  else d ++ [(k, v)]

/-- The parsed upload: sheet name to sheet data, in file-native order. -/
abbrev ExcelFile := List (String × Sheet)

/-- One iteration of the loop of `import_from_excel_multiple_sheets`: a requested
name absent from the file stores the sheet-missing outcome and `continue`s, a
present one stores its `_process_sheet` outcome. -/
def multiStep (file : ExcelFile) (results : List (String × (List Registro × List String)))
    (sheetName : String) : List (String × (List Registro × List String)) :=
  if (file.map Prod.fst).contains sheetName = false then
    dictInsert results sheetName ([], [sheetMissingMsg sheetName])
  else
    match file.lookup sheetName with
    | some sheet => dictInsert results sheetName (processSheet sheetName sheet)
    | none => results

/-- `import_from_excel_multiple_sheets` on a readable file: process the requested
sheets (all of them when the request is `None` or the empty list, since
`if not sheet_names` is true for both), collecting per-sheet outcomes into the
results dict. -/
def importFromExcelMultipleSheets (file : ExcelFile) (sheetNames : Option (List String)) :
    List (String × (List Registro × List String)) :=
  let availableSheets := file.map Prod.fst
  let toProcess :=
    match sheetNames with
    | none => availableSheets
    | some l => if l.isEmpty then availableSheets else l
  toProcess.foldl (multiStep file) []

/-- The outcome one requested sheet identifier ends up with: its `_process_sheet`
outcome when present in the file, the sheet-missing outcome when absent. -/
def expectedOutcome (file : ExcelFile) (name : String) : List Registro × List String :=
  match file.lookup name with
  | some sheet => processSheet name sheet
  | none => ([], [sheetMissingMsg name])

/-- State of the reconciliation loop of `importar_registros` within one sheet:
the session-visible store (committed rows plus rows added and flushed earlier in
this request) and the per-sheet accumulators. -/
structure RecState where
  db : List Registro
  creados : List Registro
  dups : List String
  errsDb : List String
  deriving Repr, DecidableEq

/-- Outcome of one attempted insert (`db.add` + `db.flush`): `none` means it
succeeds, `some msg` means it raises with message `msg` (e.g. a constraint
violation under a concurrent writer, despite the pre-check). -/
abbrev CreateOracle := Registro → Option String

/-- One iteration of the per-record loop: query the store by email; a hit is
collected as a duplicate; otherwise attempt the insert — success extends the
session store and the created list, failure appends the per-record error string
`"<email>: <message>"` and the loop continues. -/
def reconStep (oracle : CreateOracle) (s : RecState) (r : Registro) : RecState :=
  match s.db.find? (fun p => p.email == r.email) with
  | some _ => { s with dups := s.dups ++ [r.email] }
  | none =>
    match oracle r with
    | none => { s with db := s.db ++ [r], creados := s.creados ++ [r] }
    | some msg => { s with errsDb := s.errsDb ++ [r.email ++ ": " ++ msg] }

/-- The per-record loop run from an arbitrary state. -/
def reconcileFrom (oracle : CreateOracle) (s : RecState) (rs : List Registro) : RecState :=
  rs.foldl (reconStep oracle) s

/-- The per-record loop over one sheet's valid records, with fresh per-sheet
accumulators, against the store `db`. -/
def reconcileSheet (oracle : CreateOracle) (db : List Registro) (rs : List Registro) :
    RecState :=
  reconcileFrom oracle { db := db, creados := [], dups := [], errsDb := [] } rs

/-- The per-sheet statistics the endpoint reports (`sheets_processed`). -/
structure SheetStats where
  procesados : Nat
  creados : Nat
  duplicados : Nat
  errores : Nat
  deriving Repr, DecidableEq

/-- Accumulator of the endpoint's loop over `results_by_sheet.items()`. -/
structure ImportAcc where
  db : List Registro
  totalCreados : List Registro
  totalDups : List String
  totalErrs : List String
  sheetsProcessed : List (String × SheetStats)
  deriving Repr, DecidableEq

/-- One sheet's turn in the endpoint loop: reconcile its valid records, then
extend the grand totals — the sheet's import errors first, its per-record
persistence errors after them. -/
def importStep (oracle : CreateOracle) (acc : ImportAcc)
    (entry : String × (List Registro × List String)) : ImportAcc :=
  let st := reconcileSheet oracle acc.db entry.2.1
  { db := st.db
    totalCreados := acc.totalCreados ++ st.creados
    totalDups := acc.totalDups ++ st.dups
    totalErrs := acc.totalErrs ++ entry.2.2 ++ st.errsDb
    sheetsProcessed := acc.sheetsProcessed ++
      [(entry.1,
        { procesados := entry.2.1.length, creados := st.creados.length,
          duplicados := st.dups.length,
          errores := entry.2.2.length + st.errsDb.length })] }

/-- The endpoint loop over all per-sheet import results. -/
def processSheetResults (oracle : CreateOracle)
    (results : List (String × (List Registro × List String))) (db0 : List Registro) :
    ImportAcc :=
  results.foldl (importStep oracle)
    { db := db0, totalCreados := [], totalDups := [], totalErrs := [], sheetsProcessed := [] }

/-- The response body of the import endpoint. -/
structure ImportResponse where
  success : Bool
  message : String
  registros_creados : List Registro
  total_creados : Nat
  total_duplicados : Nat
  emails_duplicados : List String
  errores : List String
  total_errores : Nat
  hojas_procesadas : List (String × SheetStats)
  deriving Repr, DecidableEq

/-- The endpoint's human-readable message. -/
def buildMensaje (creados dups errs : Nat) : String :=
  let parts :=
    (if creados > 0 then [toString creados ++ " registro(s) importado(s)"] else []) ++
    (if dups > 0 then [toString dups ++ " duplicado(s)"] else []) ++
    (if errs > 0 then [toString errs ++ " error(es)"] else [])
  if parts.isEmpty then "No se procesaron registros" else String.intercalate ". " parts

/-- The response body built from the grand totals; `errores` is truncated to the
first 10 error strings while `total_errores` counts them all. -/
def buildResponse (acc : ImportAcc) : ImportResponse :=
  let totalCreados := acc.totalCreados.length
  let totalDuplicados := acc.totalDups.length
  let totalErr := acc.totalErrs.length
  { success := totalCreados > 0
    message := buildMensaje totalCreados totalDuplicados totalErr
    registros_creados := acc.totalCreados
    total_creados := totalCreados
    total_duplicados := totalDuplicados
    emails_duplicados := acc.totalDups
    errores := acc.totalErrs.take 10
    total_errores := totalErr
    hojas_procesadas := acc.sheetsProcessed }

/-- The processing part of `importar_registros` after the upload is saved: it
imports every sheet, reconciles sheet by sheet, and commits when at least one
record was created. Returns the response body and the committed store. -/
def importarRegistrosCore (oracle : CreateOracle) (file : ExcelFile)
    (sheetNames : Option (List String)) (db0 : List Registro) :
    ImportResponse × List Registro :=
  let results := importFromExcelMultipleSheets file sheetNames
  let acc := processSheetResults oracle results db0
  let committed := if acc.totalCreados.isEmpty then db0 else acc.db
  (buildResponse acc, committed)

/-- The filesystem state the endpoint touches: whether the temporary upload
artifact currently exists. -/
structure TempFS where
  tempExists : Bool
  deriving Repr, DecidableEq

/-- What the request returns: a response body, or an HTTP error. -/
inductive EndpointResult where
  | ok (resp : ImportResponse)
  | httpError (status : Nat) (detail : String)
  deriving Repr, DecidableEq

/-- `importar_registros` from the point where the upload is saved to the
temporary path. `procException` abstracts an exception raised inside the try
block after the save (`some msg` makes the endpoint roll back and answer 500).
The `finally` block removes the temporary file when it exists. Returns the
result, the filesystem state at return, and the committed store. -/
def importarRegistros (oracle : CreateOracle) (file : ExcelFile)
    (sheetNames : Option (List String)) (db0 : List Registro)
    (procException : Option String) (fs0 : TempFS) :
    EndpointResult × TempFS × List Registro :=
  let fs1 : TempFS := { fs0 with tempExists := true }
  let bodyOut : EndpointResult × List Registro :=
    match procException with
    | some msg =>
      (EndpointResult.httpError 500 ("Error al procesar archivo: " ++ msg), db0)
    | none =>
      let out := importarRegistrosCore oracle file sheetNames db0
      (EndpointResult.ok out.1, out.2)
  let fs2 := if fs1.tempExists then { fs1 with tempExists := false } else fs1
  (bodyOut.1, fs2, bodyOut.2)

/-- Concrete sheet used to instantiate the row-partition claim: a valid row, an
invalid-email row and a row with a null required cell. -/
def wSheetC2 : Sheet :=
  { headers := ["Nombres", "Apellidos", "Email", "Estudio"],
    rows := [[some "Juan", some "Perez", some "j@p.co", some "Sistemas"],
             [some "Eva", some "Diaz", some "bad", some "Sistemas"],
             [some "Ana", none, some "a@b.c", some "Sistemas"]] }

/-- Concrete header row exercising the synonym table. -/
def wHeadersC3 : List String := ["Nombre", "Apellido", " CORREO ", "Programa", "Extra"]

/-- Concrete sheet whose first row has a whitespace-only `nombres` cell. -/
def wSheetC6 : Sheet :=
  { headers := ["Nombres", "Apellidos", "Email", "Estudio"],
    rows := [[some "   ", some "Doe", some "a@b.c", some "Sistemas"]] }

/-- Whether the session-visible store already holds a record with this email
(the endpoint's per-record existence query). -/
def hasEmail (db : List Registro) (e : String) : Bool :=
  db.any (fun p => p.email == e)

/-- The per-sheet error blocks in the order the endpoint accumulates them:
for each sheet, first its import errors, then its per-record persistence
errors, with the session store threaded from sheet to sheet. -/
def sheetErrBlocks (oracle : CreateOracle) (db : List Registro) :
    List (String × (List Registro × List String)) → List (List String)
  | [] => []
  | entry :: rest =>
    (entry.2.2 ++ (reconcileSheet oracle db entry.2.1).errsDb)
      :: sheetErrBlocks oracle (reconcileSheet oracle db entry.2.1).db rest

/-- Concrete one-sheet file for the missing-sheet claim. -/
def wFileC7 : ExcelFile := [("Sheet1", wSheetC2)]

/-- A store whose every insert succeeds. -/
def wOracleNoFail : CreateOracle := fun _ => none

/-- Concrete candidate whose email collides with `wRegB`. -/
def wRegA : Registro :=
  { nombres := "Ana", apellidos := "A", email := "dup@x.co", estudio := "Sistemas" }

/-- Concrete candidate with the same email as `wRegA`. -/
def wRegB : Registro :=
  { nombres := "Bea", apellidos := "B", email := "dup@x.co", estudio := "Sistemas" }

/-- A store whose insert raises for one specific email (a simulated constraint
violation) and succeeds for every other. -/
def wOracleFailB : CreateOracle :=
  fun r => if r.email == "b@x.co" then some "boom" else none

/-- Concrete candidate whose insert succeeds under `wOracleFailB`. -/
def wRegC : Registro :=
  { nombres := "Cal", apellidos := "C", email := "c@x.co", estudio := "Sistemas" }

/-- Concrete candidate whose insert fails under `wOracleFailB`. -/
def wRegD : Registro :=
  { nombres := "Dee", apellidos := "D", email := "b@x.co", estudio := "Sistemas" }

/-- Concrete sheet producing eleven row errors. -/
def wSheetC10 : Sheet :=
  { headers := ["Nombres", "Apellidos", "Email", "Estudio"],
    rows := List.replicate 11 [some "A", some "B", some "bad", some "Sistemas"] }

/-- Concrete one-sheet file producing eleven errors. -/
def wFileC10 : ExcelFile := [("H", wSheetC10)]

theorem rowOutcome_eq_none_iff (n : String) (iN iA iE iS idx : Nat) (row : List Cell) :
    rowOutcome n iN iA iE iS idx row = none ↔ droppedRow iN iA iE iS row = true := by
  unfold droppedRow
  cases h1 : getCell row iN <;> cases h2 : getCell row iA <;>
      cases h3 : getCell row iE <;> cases h4 : getCell row iS <;>
      simp [rowOutcome, h1, h2, h3, h4]
  intro h
  split_ifs at h

theorem processRowsAux_eq (n : String) (iN iA iE iS : Nat) :
    ∀ (idx : Nat) (rows : List (List Cell)),
      processRowsAux n iN iA iE iS idx rows =
        ((rows.enumFrom idx).filterMap (fun p => recOf (rowOutcome n iN iA iE iS p.1 p.2)),
         (rows.enumFrom idx).filterMap (fun p => errOf (rowOutcome n iN iA iE iS p.1 p.2)))
  | idx, [] => by rfl
  | idx, row :: rest => by
    have ih := processRowsAux_eq n iN iA iE iS (idx + 1) rest
    simp only [processRowsAux, ih, List.enumFrom, List.filterMap_cons]
    cases h : rowOutcome n iN iA iE iS idx row with
    | none => simp [recOf, errOf]
    | some o => cases o <;> simp [recOf, errOf]

theorem processRowsAux_conservation (n : String) (iN iA iE iS : Nat) :
    ∀ (idx : Nat) (rows : List (List Cell)),
      (processRowsAux n iN iA iE iS idx rows).1.length
        + (processRowsAux n iN iA iE iS idx rows).2.length
        + (rows.filter (droppedRow iN iA iE iS)).length = rows.length
  | idx, [] => by rfl
  | idx, row :: rest => by
    have ih := processRowsAux_conservation n iN iA iE iS (idx + 1) rest
    cases h0 : rowOutcome n iN iA iE iS idx row with
    | none =>
      have hd : droppedRow iN iA iE iS row = true :=
        (rowOutcome_eq_none_iff n iN iA iE iS idx row).1 h0
      simp [processRowsAux, h0, List.filter_cons, hd]
      omega
    | some o =>
      have hd : droppedRow iN iA iE iS row = false := by
        cases hdd : droppedRow iN iA iE iS row
        · rfl
        · exact absurd ((rowOutcome_eq_none_iff n iN iA iE iS idx row).2 hdd)
            (by simp [h0])
      cases o with
      | inl r =>
        simp [processRowsAux, h0, List.filter_cons, hd]
        omega
      | inr e =>
        simp [processRowsAux, h0, List.filter_cons, hd]
        omega

/-- C2: for a sheet whose columns resolve, `_process_sheet` classifies each data
row independently — the valid records are exactly the rows' record outcomes and
the error strings exactly their error outcomes (so no row yields both, and a
failing row never prevents processing of subsequent rows), a row contributes
nothing exactly when some required field's cell is null (the dropna), and
`len(valid_records) + len(error_strings) + len(dropped_rows) = len(input_rows)`. -/
theorem c2_row_partition (name : String) (sheet : Sheet) (iN iA iE iS : Nat)
    (hN : colIndex sheet.headers synNombres = some iN)
    (hA : colIndex sheet.headers synApellidos = some iA)
    (hE : colIndex sheet.headers synEmail = some iE)
    (hS : colIndex sheet.headers synEstudio = some iS) :
    processSheet name sheet =
      ((sheet.rows.enumFrom 0).filterMap
        (fun p => recOf (rowOutcome name iN iA iE iS p.1 p.2)),
       (sheet.rows.enumFrom 0).filterMap
        (fun p => errOf (rowOutcome name iN iA iE iS p.1 p.2)))
    ∧ (∀ idx row, ¬((recOf (rowOutcome name iN iA iE iS idx row)).isSome = true
        ∧ (errOf (rowOutcome name iN iA iE iS idx row)).isSome = true))
    ∧ (∀ idx row, rowOutcome name iN iA iE iS idx row = none ↔
        droppedRow iN iA iE iS row = true)
    ∧ (processSheet name sheet).1.length + (processSheet name sheet).2.length
        + (sheet.rows.filter (droppedRow iN iA iE iS)).length = sheet.rows.length := by
  have hps : processSheet name sheet = processRows name iN iA iE iS sheet.rows := by
    simp [processSheet, hN, hA, hE, hS]
  refine ⟨?_, ?_, ?_, ?_⟩
  · rw [hps]; exact processRowsAux_eq name iN iA iE iS 0 sheet.rows
  · intro idx row h
    rcases hro : rowOutcome name iN iA iE iS idx row with _ | r
    · simp [recOf, errOf, hro] at h
    · rcases r with r | e <;> simp [recOf, errOf, hro] at h
  · exact fun idx row => rowOutcome_eq_none_iff name iN iA iE iS idx row
  · rw [hps]; exact processRowsAux_conservation name iN iA iE iS 0 sheet.rows

theorem c2_row_partition_witness :
    (processSheet "H" wSheetC2).1.length + (processSheet "H" wSheetC2).2.length
      + (wSheetC2.rows.filter (droppedRow 0 1 2 3)).length = wSheetC2.rows.length :=
  (c2_row_partition "H" wSheetC2 0 1 2 3 (by decide) (by decide) (by decide)
    (by decide)).2.2.2

theorem findMappedCol_eq_find? (cols syns : List String) :
    findMappedCol cols syns = cols.find? (fun c => syns.contains c) := by
  induction cols with
  | nil => rfl
  | cons c rest ih =>
    cases h : syns.contains c
    · have hm : c ∉ syns := by
        simpa [List.contains, List.elem_eq_mem] using h
      rw [List.find?_cons_of_neg _ (by simpa using hm), findMappedCol,
        if_neg (by simpa using hm), ih]
    · have hm : c ∈ syns := by
        simpa [List.contains, List.elem_eq_mem] using h
      rw [List.find?_cons_of_pos _ (by simpa using hm), findMappedCol,
        if_pos (by simpa using hm)]

theorem findMappedCol_norm (headers syns : List String) :
    findMappedCol (headers.map normHeader) syns =
      (headers.find? (fun h => syns.contains (normHeader h))).map normHeader := by
  rw [findMappedCol_eq_find?, List.find?_map]
  rfl

theorem mappedColumns_lookup_nombres (headers : List String) :
    (mappedColumns headers).lookup "nombres" =
      (headers.find? (fun h => synNombres.contains (normHeader h))).map normHeader := by
  rw [← findMappedCol_norm]
  unfold mappedColumns columnMapping
  rcases h1 : findMappedCol (headers.map normHeader) synNombres with _ | c1 <;>
    rcases h2 : findMappedCol (headers.map normHeader) synApellidos with _ | c2 <;>
    rcases h3 : findMappedCol (headers.map normHeader) synEmail with _ | c3 <;>
    rcases h4 : findMappedCol (headers.map normHeader) synEstudio with _ | c4 <;>
    simp [List.filterMap, h1, h2, h3, h4, List.lookup]

theorem mappedColumns_lookup_apellidos (headers : List String) :
    (mappedColumns headers).lookup "apellidos" =
      (headers.find? (fun h => synApellidos.contains (normHeader h))).map normHeader := by
  rw [← findMappedCol_norm]
  unfold mappedColumns columnMapping
  rcases h1 : findMappedCol (headers.map normHeader) synNombres with _ | c1 <;>
    rcases h2 : findMappedCol (headers.map normHeader) synApellidos with _ | c2 <;>
    rcases h3 : findMappedCol (headers.map normHeader) synEmail with _ | c3 <;>
    rcases h4 : findMappedCol (headers.map normHeader) synEstudio with _ | c4 <;>
    simp [List.filterMap, h1, h2, h3, h4, List.lookup]

theorem mappedColumns_lookup_email (headers : List String) :
    (mappedColumns headers).lookup "email" =
      (headers.find? (fun h => synEmail.contains (normHeader h))).map normHeader := by
  rw [← findMappedCol_norm]
  unfold mappedColumns columnMapping
  rcases h1 : findMappedCol (headers.map normHeader) synNombres with _ | c1 <;>
    rcases h2 : findMappedCol (headers.map normHeader) synApellidos with _ | c2 <;>
    rcases h3 : findMappedCol (headers.map normHeader) synEmail with _ | c3 <;>
    rcases h4 : findMappedCol (headers.map normHeader) synEstudio with _ | c4 <;>
    simp [List.filterMap, h1, h2, h3, h4, List.lookup]

theorem mappedColumns_lookup_estudio (headers : List String) :
    (mappedColumns headers).lookup "estudio" =
      (headers.find? (fun h => synEstudio.contains (normHeader h))).map normHeader := by
  rw [← findMappedCol_norm]
  unfold mappedColumns columnMapping
  rcases h1 : findMappedCol (headers.map normHeader) synNombres with _ | c1 <;>
    rcases h2 : findMappedCol (headers.map normHeader) synApellidos with _ | c2 <;>
    rcases h3 : findMappedCol (headers.map normHeader) synEmail with _ | c3 <;>
    rcases h4 : findMappedCol (headers.map normHeader) synEstudio with _ | c4 <;>
    simp [List.filterMap, h1, h2, h3, h4, List.lookup]

theorem colIndex_isSome_iff (headers syns : List String) :
    (colIndex headers syns).isSome = true ↔
      ∃ h ∈ headers, syns.contains (normHeader h) = true := by
  simp [colIndex, List.findIdx?_isSome, List.any_eq_true]

theorem lookup_isSome_nombres (headers : List String) :
    ((mappedColumns headers).lookup "nombres").isSome = true ↔
      ∃ h ∈ headers, synNombres.contains (normHeader h) = true := by
  rw [mappedColumns_lookup_nombres]
  simp [List.find?_isSome]

theorem lookup_isSome_apellidos (headers : List String) :
    ((mappedColumns headers).lookup "apellidos").isSome = true ↔
      ∃ h ∈ headers, synApellidos.contains (normHeader h) = true := by
  rw [mappedColumns_lookup_apellidos]
  simp [List.find?_isSome]

theorem lookup_isSome_email (headers : List String) :
    ((mappedColumns headers).lookup "email").isSome = true ↔
      ∃ h ∈ headers, synEmail.contains (normHeader h) = true := by
  rw [mappedColumns_lookup_email]
  simp [List.find?_isSome]

theorem lookup_isSome_estudio (headers : List String) :
    ((mappedColumns headers).lookup "estudio").isSome = true ↔
      ∃ h ∈ headers, synEstudio.contains (normHeader h) = true := by
  rw [mappedColumns_lookup_estudio]
  simp [List.find?_isSome]

theorem missingFields_eq_nil_iff (headers : List String) :
    missingFields headers = [] ↔
      ((colIndex headers synNombres).isSome = true
        ∧ (colIndex headers synApellidos).isSome = true
        ∧ (colIndex headers synEmail).isSome = true
        ∧ (colIndex headers synEstudio).isSome = true) := by
  simp only [colIndex_isSome_iff]
  rw [← lookup_isSome_nombres, ← lookup_isSome_apellidos, ← lookup_isSome_email,
    ← lookup_isSome_estudio]
  unfold missingFields requiredFields
  rw [List.filter_eq_nil_iff]
  simp [Option.isSome_iff_ne_none, Option.isNone_iff_eq_none]

theorem processSheet_missing (name : String) (sheet : Sheet)
    (h : missingFields sheet.headers ≠ []) :
    processSheet name sheet = ([], [missingMsg name sheet.headers]) := by
  rcases o1 : colIndex sheet.headers synNombres with _ | i1
  · simp [processSheet, o1]
  rcases o2 : colIndex sheet.headers synApellidos with _ | i2
  · simp [processSheet, o1, o2]
  rcases o3 : colIndex sheet.headers synEmail with _ | i3
  · simp [processSheet, o1, o2, o3]
  rcases o4 : colIndex sheet.headers synEstudio with _ | i4
  · simp [processSheet, o1, o2, o3, o4]
  exact absurd ((missingFields_eq_nil_iff sheet.headers).2
    ⟨by simp [o1], by simp [o2], by simp [o3], by simp [o4]⟩) h

/-- C3: the Column Resolver normalizes each header by trimming and lower-casing
and maps each canonical field to the first header, in header order, whose
normalized form is in that field's fixed synonym set (the `estudio` set being
estudio, estudios, carrera, programa, course), ignoring unmatched headers; a
field is reported missing exactly when no header matches its synonyms, and when
any field is missing the sheet's outcome is an empty valid-record list and a
single error listing every unmatched canonical field. -/
theorem c3_column_resolver (headers : List String) :
    ((mappedColumns headers).lookup "nombres" =
        (headers.find? (fun h => synNombres.contains (normHeader h))).map normHeader)
    ∧ ((mappedColumns headers).lookup "apellidos" =
        (headers.find? (fun h => synApellidos.contains (normHeader h))).map normHeader)
    ∧ ((mappedColumns headers).lookup "email" =
        (headers.find? (fun h => synEmail.contains (normHeader h))).map normHeader)
    ∧ ((mappedColumns headers).lookup "estudio" =
        (headers.find? (fun h => synEstudio.contains (normHeader h))).map normHeader)
    ∧ synEstudio = ["estudio", "estudios", "carrera", "programa", "course"]
    ∧ (∀ f, f ∈ missingFields headers ↔ (f ∈ requiredFields ∧
        headers.find? (fun h =>
          (((columnMapping.lookup f).getD []).contains (normHeader h))) = none))
    ∧ (∀ name rows, missingFields headers ≠ [] →
        processSheet name { headers := headers, rows := rows } =
          ([], [missingMsg name headers])) := by
  refine ⟨mappedColumns_lookup_nombres headers, mappedColumns_lookup_apellidos headers,
    mappedColumns_lookup_email headers, mappedColumns_lookup_estudio headers, rfl, ?_, ?_⟩
  · intro f
    have g1 : (columnMapping.lookup "nombres").getD [] = synNombres := rfl
    have g2 : (columnMapping.lookup "apellidos").getD [] = synApellidos := rfl
    have g3 : (columnMapping.lookup "email").getD [] = synEmail := rfl
    have g4 : (columnMapping.lookup "estudio").getD [] = synEstudio := rfl
    constructor
    · intro hf
      have hf2 := hf
      unfold missingFields at hf2
      rw [List.mem_filter] at hf2
      obtain ⟨hreq, hnone⟩ := hf2
      refine ⟨hreq, ?_⟩
      have : f = "nombres" ∨ f = "apellidos" ∨ f = "email" ∨ f = "estudio" := by
        simpa [requiredFields] using hreq
      rcases this with rfl | rfl | rfl | rfl
      · rw [mappedColumns_lookup_nombres] at hnone
        simpa [g1] using hnone
      · rw [mappedColumns_lookup_apellidos] at hnone
        simpa [g2] using hnone
      · rw [mappedColumns_lookup_email] at hnone
        simpa [g3] using hnone
      · rw [mappedColumns_lookup_estudio] at hnone
        simpa [g4] using hnone
    · rintro ⟨hreq, hnone⟩
      have : f = "nombres" ∨ f = "apellidos" ∨ f = "email" ∨ f = "estudio" := by
        simpa [requiredFields] using hreq
      unfold missingFields
      rw [List.mem_filter]
      refine ⟨hreq, ?_⟩
      rcases this with rfl | rfl | rfl | rfl
      · rw [mappedColumns_lookup_nombres]
        rw [g1] at hnone
        rw [hnone]
        rfl
      · rw [mappedColumns_lookup_apellidos]
        rw [g2] at hnone
        rw [hnone]
        rfl
      · rw [mappedColumns_lookup_email]
        rw [g3] at hnone
        rw [hnone]
        rfl
      · rw [mappedColumns_lookup_estudio]
        rw [g4] at hnone
        rw [hnone]
        rfl
  · intro name rows hmf
    exact processSheet_missing name { headers := headers, rows := rows } hmf

theorem c3_column_resolver_witness :
    (mappedColumns wHeadersC3).lookup "email" = some "correo"
      ∧ (mappedColumns ["Nombre", "Apellido", "Programa"]).lookup "email" = none
      ∧ missingFields ["Nombre", "Apellido", "Programa"] = ["email"]
      ∧ processSheet "H" { headers := ["Nombre", "Apellido", "Programa"], rows := [] } =
          ([], ["Hoja 'H': Faltan columnas: email"]) := by
  refine ⟨?_, ?_, ?_, ?_⟩
  · rw [(c3_column_resolver wHeadersC3).2.2.1]
    decide
  · rw [(c3_column_resolver ["Nombre", "Apellido", "Programa"]).2.2.1]
    decide
  · decide
  · exact (c3_column_resolver ["Nombre", "Apellido", "Programa"]).2.2.2.2.2.2 "H" []
      (by decide)

theorem rowOutcome_some_cells (n : String) (iN iA iE iS idx : Nat) (row : List Cell)
    (vN vA vE vS : String) (h1 : getCell row iN = some vN) (h2 : getCell row iA = some vA)
    (h3 : getCell row iE = some vE) (h4 : getCell row iS = some vS) :
    rowOutcome n iN iA iE iS idx row =
      (if pyStrip vS ∉ ESTUDIOS_DISPONIBLES then
        some (Sum.inr (estudioErrMsg n idx (pyStrip vS)))
      else if pyContains (pyLower (pyStrip vE)) '@' = false
          ∨ pyContains (pyLower (pyStrip vE)) '.' = false then
        some (Sum.inr (emailErrMsg n idx (pyLower (pyStrip vE))))
      else
        some (Sum.inl { nombres := pyStrip vN, apellidos := pyStrip vA,
                        email := pyLower (pyStrip vE), estudio := pyStrip vS })) := by
  unfold rowOutcome
  rw [h1, h2, h3, h4]

theorem cells_of_not_dropped (iN iA iE iS : Nat) (row : List Cell)
    (h : droppedRow iN iA iE iS row = false) :
    ∃ vN vA vE vS, getCell row iN = some vN ∧ getCell row iA = some vA ∧
      getCell row iE = some vE ∧ getCell row iS = some vS := by
  unfold droppedRow at h
  rcases c1 : getCell row iN with _ | vN <;> rw [c1] at h
  · simp at h
  rcases c2 : getCell row iA with _ | vA <;> rw [c2] at h
  · simp at h
  rcases c3 : getCell row iE with _ | vE <;> rw [c3] at h
  · simp at h
  rcases c4 : getCell row iS with _ | vS <;> rw [c4] at h
  · simp at h
  exact ⟨vN, vA, vE, vS, rfl, rfl, rfl, rfl⟩

theorem rowOutcome_inl_inv (n : String) (iN iA iE iS idx : Nat) (row : List Cell)
    (r : Registro) (h : rowOutcome n iN iA iE iS idx row = some (Sum.inl r)) :
    ∃ vN vA vE vS, getCell row iN = some vN ∧ getCell row iA = some vA ∧
      getCell row iE = some vE ∧ getCell row iS = some vS ∧
      pyStrip vS ∈ ESTUDIOS_DISPONIBLES ∧
      pyContains (pyLower (pyStrip vE)) '@' = true ∧
      pyContains (pyLower (pyStrip vE)) '.' = true ∧
      r = { nombres := pyStrip vN, apellidos := pyStrip vA,
            email := pyLower (pyStrip vE), estudio := pyStrip vS } := by
  have hnd : droppedRow iN iA iE iS row = false := by
    cases hdd : droppedRow iN iA iE iS row
    · rfl
    · rw [(rowOutcome_eq_none_iff n iN iA iE iS idx row).2 hdd] at h
      exact absurd h (by simp)
  obtain ⟨vN, vA, vE, vS, c1, c2, c3, c4⟩ := cells_of_not_dropped iN iA iE iS row hnd
  rw [rowOutcome_some_cells n iN iA iE iS idx row vN vA vE vS c1 c2 c3 c4] at h
  refine ⟨vN, vA, vE, vS, c1, c2, c3, c4, ?_⟩
  by_cases hs : pyStrip vS ∈ ESTUDIOS_DISPONIBLES
  · rw [if_neg (by simpa using hs)] at h
    by_cases ha : pyContains (pyLower (pyStrip vE)) '@' = false
        ∨ pyContains (pyLower (pyStrip vE)) '.' = false
    · rw [if_pos ha] at h
      exact absurd h (by simp)
    · rw [if_neg ha] at h
      rcases not_or.1 ha with ⟨he1, he2⟩
      refine ⟨hs, by simpa using he1, by simpa using he2, ?_⟩
      have := h
      simp only [Option.some.injEq, Sum.inl.injEq] at this
      exact this.symm
  · rw [if_pos (by simpa using hs)] at h
    exact absurd h (by simp)

theorem mem_valid_rowOutcome (name : String) (iN iA iE iS : Nat)
    (rows : List (List Cell)) (r : Registro)
    (hr : r ∈ (processRows name iN iA iE iS rows).1) :
    ∃ p ∈ rows.enumFrom 0, rowOutcome name iN iA iE iS p.1 p.2 = some (Sum.inl r) := by
  rw [processRows, processRowsAux_eq] at hr
  simp only [List.mem_filterMap] at hr
  obtain ⟨p, hp, hrec⟩ := hr
  refine ⟨p, hp, ?_⟩
  rcases hx : rowOutcome name iN iA iE iS p.1 p.2 with _ | x
  · rw [hx] at hrec; exact absurd hrec (by simp [recOf])
  · rcases x with x | e
    · rw [hx] at hrec
      simp [recOf] at hrec
      rw [hrec]
    · rw [hx] at hrec; exact absurd hrec (by simp [recOf])

/-- C4: a non-dropped row whose trimmed `estudio` is outside the enumerated
program list is rejected before its email is even looked at — whatever the email
cell holds, the row contributes exactly one error string (the estudio message,
which embeds the offending value), contributes no record, and the remaining rows
are still processed. -/
theorem c4_estudio_first (name : String) (iN iA iE iS idx : Nat)
    (row : List Cell) (rest : List (List Cell)) (vN vA vE vS : String)
    (h1 : getCell row iN = some vN) (h2 : getCell row iA = some vA)
    (h3 : getCell row iE = some vE) (h4 : getCell row iS = some vS)
    (hbad : pyStrip vS ∉ ESTUDIOS_DISPONIBLES) :
    processRowsAux name iN iA iE iS idx (row :: rest) =
      ((processRowsAux name iN iA iE iS (idx + 1) rest).1,
       estudioErrMsg name idx (pyStrip vS) ::
         (processRowsAux name iN iA iE iS (idx + 1) rest).2)
    ∧ (∃ pre suf, estudioErrMsg name idx (pyStrip vS) = pre ++ (pyStrip vS ++ suf)) := by
  have ho : rowOutcome name iN iA iE iS idx row =
      some (Sum.inr (estudioErrMsg name idx (pyStrip vS))) := by
    rw [rowOutcome_some_cells name iN iA iE iS idx row vN vA vE vS h1 h2 h3 h4,
      if_pos hbad]
  constructor
  · simp [processRowsAux, ho]
  · refine ⟨"Hoja '" ++ name ++ "', Fila " ++ toString (idx + 2) ++ ": Estudio '",
      "' no válido. Debe ser: " ++ String.intercalate ", " ESTUDIOS_DISPONIBLES, ?_⟩
    simp [estudioErrMsg, String.append_assoc]

theorem c4_estudio_first_witness :
    processRowsAux "H" 0 1 2 3 0 [[some "J", some "P", some "sin-arroba", some "Cocina"]] =
      ((processRowsAux "H" 0 1 2 3 1 []).1,
       estudioErrMsg "H" 0 (pyStrip "Cocina") :: (processRowsAux "H" 0 1 2 3 1 []).2) :=
  (c4_estudio_first "H" 0 1 2 3 0 [some "J", some "P", some "sin-arroba", some "Cocina"]
    [] "J" "P" "sin-arroba" "Cocina" rfl rfl rfl rfl (by decide)).1

/-- C5: on a non-dropped row with a valid `estudio`, the email is trimmed and
lower-cased and must contain both an at sign and a dot; a row failing that test
contributes exactly one error string (the email message) and no record, while
every record the sheet importer emits carries an email that is the trimmed,
lower-cased cell value and contains both characters. -/
theorem c5_email_validation (name : String) (iN iA iE iS idx : Nat)
    (row : List Cell) (rest : List (List Cell)) (vN vA vE vS : String)
    (h1 : getCell row iN = some vN) (h2 : getCell row iA = some vA)
    (h3 : getCell row iE = some vE) (h4 : getCell row iS = some vS)
    (hok : pyStrip vS ∈ ESTUDIOS_DISPONIBLES)
    (hbad : pyContains (pyLower (pyStrip vE)) '@' = false
      ∨ pyContains (pyLower (pyStrip vE)) '.' = false) :
    (processRowsAux name iN iA iE iS idx (row :: rest) =
      ((processRowsAux name iN iA iE iS (idx + 1) rest).1,
       emailErrMsg name idx (pyLower (pyStrip vE)) ::
         (processRowsAux name iN iA iE iS (idx + 1) rest).2))
    ∧ (∀ rows r, r ∈ (processRows name iN iA iE iS rows).1 →
        pyContains r.email '@' = true ∧ pyContains r.email '.' = true ∧
        ∃ v : String, r.email = pyLower (pyStrip v)) := by
  constructor
  · have ho : rowOutcome name iN iA iE iS idx row =
        some (Sum.inr (emailErrMsg name idx (pyLower (pyStrip vE)))) := by
      rw [rowOutcome_some_cells name iN iA iE iS idx row vN vA vE vS h1 h2 h3 h4,
        if_neg (by simpa using hok), if_pos hbad]
    simp [processRowsAux, ho]
  · intro rows r hr
    obtain ⟨p, hp, hro⟩ := mem_valid_rowOutcome name iN iA iE iS rows r hr
    obtain ⟨wN, wA, wE, wS, _, _, _, _, _, hat, hdot, hreq⟩ :=
      rowOutcome_inl_inv name iN iA iE iS p.1 p.2 r hro
    subst hreq
    exact ⟨hat, hdot, wE, rfl⟩

theorem c5_email_validation_witness :
    processRowsAux "H" 0 1 2 3 0 [[some "J", some "P", some " Sin.Arroba ", some "Sistemas"]] =
      ((processRowsAux "H" 0 1 2 3 1 []).1,
       emailErrMsg "H" 0 (pyLower (pyStrip " Sin.Arroba ")) ::
         (processRowsAux "H" 0 1 2 3 1 []).2) :=
  (c5_email_validation "H" 0 1 2 3 0
    [some "J", some "P", some " Sin.Arroba ", some "Sistemas"] []
    "J" "P" " Sin.Arroba " "Sistemas" rfl rfl rfl rfl (by decide) (by decide)).1

/-- C6 counterexample: a row whose `nombres` cell holds only whitespace is not
null, survives the dropna, and is emitted as a valid record whose `nombres` is
the empty string — refuting the claim that every emitted record has non-empty
`nombres` and `apellidos` after trimming. -/
theorem c6_counterexample :
    (processSheet "Hoja1" wSheetC6).1 =
      [{ nombres := "", apellidos := "Doe", email := "a@b.c", estudio := "Sistemas" }]
    ∧ ∃ r ∈ (processSheet "Hoja1" wSheetC6).1, r.nombres = "" := by
  constructor
  · decide
  · exact ⟨{ nombres := "", apellidos := "Doe", email := "a@b.c", estudio := "Sistemas" },
      by decide, rfl⟩

/-- C6 (amended): every record the sheet importer emits has `nombres` and
`apellidos` equal to the whitespace-trimmed values of non-null cells of its row;
they carry no surrounding whitespace but are not guaranteed non-empty, since a
whitespace-only cell passes the null filter and trims to the empty string. -/
theorem c6_trimmed_fields (name : String) (sheet : Sheet) (iN iA iE iS : Nat)
    (hN : colIndex sheet.headers synNombres = some iN)
    (hA : colIndex sheet.headers synApellidos = some iA)
    (hE : colIndex sheet.headers synEmail = some iE)
    (hS : colIndex sheet.headers synEstudio = some iS) :
    ∀ r ∈ (processSheet name sheet).1,
      ∃ row ∈ sheet.rows, ∃ vN vA,
        getCell row iN = some vN ∧ getCell row iA = some vA ∧
        r.nombres = pyStrip vN ∧ r.apellidos = pyStrip vA := by
  intro r hr
  have hps : processSheet name sheet = processRows name iN iA iE iS sheet.rows := by
    simp [processSheet, hN, hA, hE, hS]
  rw [hps] at hr
  obtain ⟨p, hp, hro⟩ := mem_valid_rowOutcome name iN iA iE iS sheet.rows r hr
  obtain ⟨wN, wA, wE, wS, d1, d2, _, _, _, _, _, hreq⟩ :=
    rowOutcome_inl_inv name iN iA iE iS p.1 p.2 r hro
  refine ⟨p.2, ?_, wN, wA, d1, d2, by rw [hreq], by rw [hreq]⟩
  have hm : p.2 ∈ List.map Prod.snd (sheet.rows.enumFrom 0) := List.mem_map_of_mem _ hp
  rwa [List.enumFrom_map_snd] at hm

theorem c6_trimmed_fields_witness :
    ∃ row ∈ wSheetC6.rows, ∃ vN vA,
      getCell row 0 = some vN ∧ getCell row 1 = some vA ∧
      ({ nombres := "", apellidos := "Doe", email := "a@b.c", estudio := "Sistemas" } :
        Registro).nombres = pyStrip vN ∧
      ({ nombres := "", apellidos := "Doe", email := "a@b.c", estudio := "Sistemas" } :
        Registro).apellidos = pyStrip vA :=
  c6_trimmed_fields "Hoja1" wSheetC6 0 1 2 3 (by decide) (by decide) (by decide)
    (by decide)
    { nombres := "", apellidos := "Doe", email := "a@b.c", estudio := "Sistemas" }
    (by decide)

theorem contains_fst_eq_lookup_isSome {β : Type} (d : List (String × β)) (k : String) :
    (d.map Prod.fst).contains k = (d.lookup k).isSome := by
  induction d with
  | nil => rfl
  | cons p rest ih =>
    obtain ⟨a, b⟩ := p
    cases h : k == a <;>
      simp only [List.map_cons, List.contains_cons, List.lookup_cons, h, ih,
        Bool.false_or, Bool.true_or] <;> rfl

theorem lookup_map_replace {α : Type} (d : List (String × α)) (k : String) (v : α)
    (hc : (d.map Prod.fst).contains k = true) :
    (d.map (fun p => if p.1 = k then (k, v) else p)).lookup k = some v := by
  induction d with
  | nil => simp at hc
  | cons p rest ih =>
    obtain ⟨a, b⟩ := p
    by_cases hk : a = k
    · simp [List.lookup_cons, hk]
    · have hne : (k == a) = false := by simp [Ne.symm hk]
      have hc2 : (rest.map Prod.fst).contains k = true := by
        simpa [List.contains, List.elem, hne] using hc
      simp only [List.map_cons, if_neg hk, List.lookup_cons, hne]
      exact ih hc2

theorem lookup_append_single {α : Type} (d : List (String × α)) (k : String) (v : α)
    (hc : (d.map Prod.fst).contains k = false) :
    (d ++ [(k, v)]).lookup k = some v := by
  rw [List.lookup_append]
  have hnone : d.lookup k = none := by
    have := contains_fst_eq_lookup_isSome d k
    rw [hc] at this
    exact Option.not_isSome_iff_eq_none.1 (by simp [← this])
  simp [hnone, List.lookup_cons]

theorem dictInsert_lookup_self {α : Type} (d : List (String × α)) (k : String) (v : α) :
    (dictInsert d k v).lookup k = some v := by
  unfold dictInsert
  split
  · exact lookup_map_replace d k v (by assumption)
  · exact lookup_append_single d k v (by rename_i hc; simpa using hc)

theorem lookup_map_replace_other {α : Type} (d : List (String × α)) (k k' : String)
    (v : α) (hkk : k' ≠ k) :
    (d.map (fun p => if p.1 = k then (k, v) else p)).lookup k' = d.lookup k' := by
  have hne : (k' == k) = false := by simp [hkk]
  induction d with
  | nil => rfl
  | cons p rest ih =>
    obtain ⟨a, b⟩ := p
    by_cases hk : a = k
    · subst hk
      rw [List.map_cons,
        show (if (a, b).1 = a then (a, v) else (a, b)) = (a, v) from by simp,
        List.lookup_cons, List.lookup_cons, hne]
      exact ih
    · simp only [List.map_cons, if_neg hk, List.lookup_cons]
      cases hx : k' == a
      · simp only [hx]
        exact ih
      · simp only [hx]

theorem dictInsert_lookup_other {α : Type} (d : List (String × α)) (k k' : String)
    (v : α) (hkk : k' ≠ k) :
    (dictInsert d k v).lookup k' = d.lookup k' := by
  have hne : (k' == k) = false := by simp [hkk]
  unfold dictInsert
  split
  · exact lookup_map_replace_other d k k' v hkk
  · rw [List.lookup_append]
    cases hx : d.lookup k'
    · simp [List.lookup_cons, hne]
    · simp

theorem dictInsert_mem {α : Type} {d : List (String × α)} {k : String} {v : α}
    {q : String × α} (hq : q ∈ dictInsert d k v) : q = (k, v) ∨ q ∈ d := by
  unfold dictInsert at hq
  split at hq
  · rcases List.mem_map.1 hq with ⟨p, hp, hpq⟩
    by_cases hk : p.1 = k
    · left
      rw [← hpq, if_pos hk]
    · right
      rwa [← hpq, if_neg hk]
  · rcases List.mem_append.1 hq with h | h
    · right; exact h
    · left; simpa using h

theorem lookup_mem {α : Type} : ∀ (d : List (String × α)) (k : String) (v : α),
    d.lookup k = some v → (k, v) ∈ d
  | [], _, _, h => by cases h
  | p :: rest, k, v, h => by
    obtain ⟨a, b⟩ := p
    rw [List.lookup_cons] at h
    cases hk : k == a
    · rw [hk] at h
      exact List.mem_cons_of_mem _ (lookup_mem rest k v h)
    · rw [hk] at h
      have hka : k = a := by simpa using hk
      have hbv : b = v := by simpa using h
      subst hka
      subst hbv
      exact List.mem_cons_self _ _

theorem multiStep_eq_insert (file : ExcelFile)
    (d : List (String × (List Registro × List String))) (name : String) :
    multiStep file d name = dictInsert d name (expectedOutcome file name) := by
  unfold multiStep expectedOutcome
  cases h : file.lookup name with
  | none =>
    have hc : (file.map Prod.fst).contains name = false := by
      rw [contains_fst_eq_lookup_isSome, h]
      rfl
    rw [if_pos hc]
  | some sheet =>
    have hc : (file.map Prod.fst).contains name = true := by
      rw [contains_fst_eq_lookup_isSome, h]
      rfl
    have hcond : ¬((file.map Prod.fst).contains name = false) := by
      rw [hc]
      simp
    rw [if_neg hcond]

theorem multiFold_mem (file : ExcelFile) :
    ∀ (toProcess : List String) (d : List (String × (List Registro × List String))),
      (∀ q ∈ d, q.2 = expectedOutcome file q.1) →
      ∀ q ∈ toProcess.foldl (multiStep file) d, q.2 = expectedOutcome file q.1 := by
  intro toProcess
  induction toProcess with
  | nil =>
    intro d hd
    simpa using hd
  | cons n rest ih =>
    intro d hd
    rw [List.foldl_cons, multiStep_eq_insert]
    refine ih _ ?_
    intro q hq
    rcases dictInsert_mem hq with h | h
    · rw [h]
    · exact hd q h

theorem multiFold_lookup_isSome (file : ExcelFile) :
    ∀ (toProcess : List String) (d : List (String × (List Registro × List String)))
      (name : String),
      (name ∈ toProcess ∨ (d.lookup name).isSome = true) →
      ((toProcess.foldl (multiStep file) d).lookup name).isSome = true := by
  intro toProcess
  induction toProcess with
  | nil =>
    intro d name h
    rcases h with h | h
    · cases h
    · simpa using h
  | cons n rest ih =>
    intro d name h
    rw [List.foldl_cons, multiStep_eq_insert]
    apply ih
    by_cases hn : name ∈ rest
    · exact Or.inl hn
    · right
      by_cases hke : name = n
      · subst hke
        rw [dictInsert_lookup_self]
        rfl
      · rw [dictInsert_lookup_other _ _ _ _ hke]
        rcases h with h | h
        · rcases List.mem_cons.1 h with h2 | h2
          · exact absurd h2 hke
          · exact absurd h2 hn
        · exact h

/-- C7: in a multi-sheet import, a requested sheet identifier absent from the
file gets, under its own key of the aggregated result, an empty valid-record
list and exactly the single sheet-missing error string, while every other
requested sheet present in the file is still processed to its own
`_process_sheet` outcome. -/
theorem c7_missing_sheet (file : ExcelFile) (requested : List String) (name : String)
    (hmem : name ∈ requested)
    (habs : (file.map Prod.fst).contains name = false) :
    (importFromExcelMultipleSheets file (some requested)).lookup name =
      some ([], [sheetMissingMsg name])
    ∧ ∀ other ∈ requested, ∀ sheet, file.lookup other = some sheet →
        (importFromExcelMultipleSheets file (some requested)).lookup other =
          some (processSheet other sheet) := by
  have hne : requested.isEmpty = false := by
    cases requested
    · cases hmem
    · rfl
  have hunf : importFromExcelMultipleSheets file (some requested) =
      requested.foldl (multiStep file) [] := by
    unfold importFromExcelMultipleSheets
    simp [hne]
  have key : ∀ nm ∈ requested,
      (requested.foldl (multiStep file) []).lookup nm =
        some (expectedOutcome file nm) := by
    intro nm hnm
    have hsome := multiFold_lookup_isSome file requested [] nm (Or.inl hnm)
    obtain ⟨v, hv⟩ := Option.isSome_iff_exists.1 hsome
    have hq := multiFold_mem file requested [] (by simp) (nm, v) (lookup_mem _ _ _ hv)
    rw [hv]
    simpa using hq
  constructor
  · rw [hunf, key name hmem]
    have hlook : file.lookup name = none := by
      rw [contains_fst_eq_lookup_isSome] at habs
      exact Option.not_isSome_iff_eq_none.1 (by simp [habs])
    unfold expectedOutcome
    rw [hlook]
  · intro other ho sheet hsheet
    rw [hunf, key other ho]
    unfold expectedOutcome
    rw [hsheet]

theorem c7_missing_sheet_witness :
    (importFromExcelMultipleSheets wFileC7 (some ["Cohort2", "Sheet1"])).lookup "Cohort2" =
      some ([], [sheetMissingMsg "Cohort2"])
    ∧ (importFromExcelMultipleSheets wFileC7 (some ["Cohort2", "Sheet1"])).lookup "Sheet1" =
      some (processSheet "Sheet1" wSheetC2) := by
  have h := c7_missing_sheet wFileC7 ["Cohort2", "Sheet1"] "Cohort2" (by decide) (by decide)
  exact ⟨h.1, h.2 "Sheet1" (by decide) wSheetC2 (by decide)⟩

theorem find?_email_eq_none_iff (db : List Registro) (e : String) :
    (db.find? (fun p => p.email == e) = none) ↔ hasEmail db e = false := by
  rw [List.find?_eq_none]
  unfold hasEmail
  rw [← Bool.not_eq_true, List.any_eq_true]
  simp

theorem reconStep_no_e (oracle : CreateOracle) (s : RecState) (r : Registro) (e : String)
    (hre : r.email ≠ e) :
    hasEmail (reconStep oracle s r).db e = hasEmail s.db e
    ∧ (reconStep oracle s r).creados.filter (fun x => x.email == e)
        = s.creados.filter (fun x => x.email == e)
    ∧ (reconStep oracle s r).dups.count e = s.dups.count e := by
  have hbe : (r.email == e) = false := by simp [hre]
  unfold reconStep
  cases hf : s.db.find? (fun p => p.email == r.email) with
  | some p =>
    refine ⟨rfl, rfl, ?_⟩
    simp [List.count_append, hbe, List.count_singleton', hre]
  | none =>
    cases ho : oracle r with
    | none =>
      refine ⟨?_, ?_, rfl⟩
      · unfold hasEmail
        simp [List.any_append, hbe]
      · rw [List.filter_append]
        simp [hbe]
    | some msg => exact ⟨rfl, rfl, rfl⟩

theorem reconStep_has_e (oracle : CreateOracle) (s : RecState) (r : Registro) (e : String)
    (hhas : hasEmail s.db e = true) :
    hasEmail (reconStep oracle s r).db e = true
    ∧ (reconStep oracle s r).creados.filter (fun x => x.email == e)
        = s.creados.filter (fun x => x.email == e)
    ∧ (reconStep oracle s r).dups.count e
        = s.dups.count e + (if r.email == e then 1 else 0) := by
  by_cases hre : r.email = e
  · subst hre
    have hf : (s.db.find? (fun p => p.email == r.email)).isSome = true := by
      rw [List.find?_isSome]
      unfold hasEmail at hhas
      rw [List.any_eq_true] at hhas
      exact hhas
    obtain ⟨p, hp⟩ := Option.isSome_iff_exists.1 hf
    unfold reconStep
    rw [hp]
    refine ⟨hhas, rfl, ?_⟩
    simp [List.count_append, List.count_singleton']
  · obtain ⟨h1, h2, h3⟩ := reconStep_no_e oracle s r e hre
    rw [h1, h2, h3]
    have hbe : (r.email == e) = false := by simp [hre]
    rw [hbe]
    exact ⟨hhas, rfl, by simp⟩

theorem reconFrom_no_e (oracle : CreateOracle) (e : String) :
    ∀ (rs : List Registro) (s : RecState),
      (∀ r ∈ rs, r.email ≠ e) → hasEmail s.db e = false →
      hasEmail (reconcileFrom oracle s rs).db e = false
      ∧ (reconcileFrom oracle s rs).creados.filter (fun x => x.email == e)
          = s.creados.filter (fun x => x.email == e)
      ∧ (reconcileFrom oracle s rs).dups.count e = s.dups.count e
  | [], s, _, hdb => ⟨hdb, rfl, rfl⟩
  | r :: rest, s, hne, hdb => by
    have hre : r.email ≠ e := hne r (List.mem_cons_self _ _)
    obtain ⟨h1, h2, h3⟩ := reconStep_no_e oracle s r e hre
    have hrec := reconFrom_no_e oracle e rest (reconStep oracle s r)
      (fun x hx => hne x (List.mem_cons_of_mem _ hx)) (by rw [h1]; exact hdb)
    rw [reconcileFrom, List.foldl_cons]
    exact ⟨hrec.1, by rw [show (List.foldl (reconStep oracle) (reconStep oracle s r) rest)
        = reconcileFrom oracle (reconStep oracle s r) rest from rfl, hrec.2.1, h2],
      by rw [show (List.foldl (reconStep oracle) (reconStep oracle s r) rest)
        = reconcileFrom oracle (reconStep oracle s r) rest from rfl, hrec.2.2, h3]⟩

theorem reconFrom_has_e (oracle : CreateOracle) (e : String) :
    ∀ (rs : List Registro) (s : RecState),
      hasEmail s.db e = true →
      hasEmail (reconcileFrom oracle s rs).db e = true
      ∧ (reconcileFrom oracle s rs).creados.filter (fun x => x.email == e)
          = s.creados.filter (fun x => x.email == e)
      ∧ (reconcileFrom oracle s rs).dups.count e
          = s.dups.count e + (rs.filter (fun r => r.email == e)).length
  | [], s, hdb => ⟨hdb, rfl, by simp [reconcileFrom]⟩
  | r :: rest, s, hdb => by
    obtain ⟨h1, h2, h3⟩ := reconStep_has_e oracle s r e hdb
    have hrec := reconFrom_has_e oracle e rest (reconStep oracle s r) h1
    rw [reconcileFrom, List.foldl_cons]
    refine ⟨hrec.1, ?_, ?_⟩
    · rw [show (List.foldl (reconStep oracle) (reconStep oracle s r) rest)
        = reconcileFrom oracle (reconStep oracle s r) rest from rfl, hrec.2.1, h2]
    · rw [show (List.foldl (reconStep oracle) (reconStep oracle s r) rest)
        = reconcileFrom oracle (reconStep oracle s r) rest from rfl, hrec.2.2, h3,
        List.filter_cons]
      cases hbe : (r.email == e) <;> simp [hbe] <;> omega

/-- C1: within one import batch, when no persistent record with email `e` exists
beforehand and the store's inserts succeed for that email, the reconciliation
loop creates a persistent record for the first candidate carrying `e` and
classifies every later candidate with the same (case-insensitively identical,
hence — candidates being lower-cased by the importer — equal) email as a
duplicate, collecting its email and creating nothing for it: the existence
check sees the records flushed earlier in the same batch. -/
theorem c1_in_batch_duplicates (oracle : CreateOracle) (db0 : List Registro)
    (pre rest : List Registro) (r0 : Registro) (e : String)
    (he : r0.email = e)
    (hdb : hasEmail db0 e = false)
    (hpre : ∀ r ∈ pre, r.email ≠ e)
    (horacle : oracle r0 = none)
    (hlow : ∀ r ∈ rest, pyLower r.email = r.email)
    (hlowe : pyLower e = e) :
    r0 ∈ (reconcileSheet oracle db0 (pre ++ r0 :: rest)).creados
    ∧ (reconcileSheet oracle db0 (pre ++ r0 :: rest)).creados.filter
        (fun x => x.email == e) = [r0]
    ∧ (reconcileSheet oracle db0 (pre ++ r0 :: rest)).dups.count e
        = (rest.filter (fun r => pyLower r.email == pyLower e)).length := by
  have hsplit : reconcileSheet oracle db0 (pre ++ r0 :: rest) =
      reconcileFrom oracle
        (reconStep oracle (reconcileFrom oracle ⟨db0, [], [], []⟩ pre) r0) rest := by
    unfold reconcileSheet reconcileFrom
    rw [List.foldl_append, List.foldl_cons]
  set s1 := reconcileFrom oracle ⟨db0, [], [], []⟩ pre with hs1
  obtain ⟨hno1, hno2, hno3⟩ := reconFrom_no_e oracle e pre ⟨db0, [], [], []⟩ hpre hdb
  have hfind : s1.db.find? (fun p => p.email == r0.email) = none := by
    rw [he, find?_email_eq_none_iff]
    exact hno1
  have hstep : reconStep oracle s1 r0 =
      { s1 with db := s1.db ++ [r0], creados := s1.creados ++ [r0] } := by
    unfold reconStep
    rw [hfind, horacle]
  have hhas2 : hasEmail (reconStep oracle s1 r0).db e = true := by
    rw [hstep]
    unfold hasEmail
    simp [List.any_append, he]
  obtain ⟨hh1, hh2, hh3⟩ := reconFrom_has_e oracle e rest (reconStep oracle s1 r0) hhas2
  have hcre : (reconcileSheet oracle db0 (pre ++ r0 :: rest)).creados.filter
      (fun x => x.email == e) = [r0] := by
    rw [hsplit, hh2, hstep]
    simp only [List.filter_append]
    rw [hno2]
    simp [he]
  refine ⟨?_, hcre, ?_⟩
  · have : r0 ∈ (reconcileSheet oracle db0 (pre ++ r0 :: rest)).creados.filter
        (fun x => x.email == e) := by
      rw [hcre]
      exact List.mem_cons_self _ _
    exact List.mem_of_mem_filter this
  · have hfe : rest.filter (fun r => pyLower r.email == pyLower e)
        = rest.filter (fun r => r.email == e) := by
      apply List.filter_congr
      intro x hx
      rw [hlow x hx, hlowe]
    rw [hfe, hsplit, hh3, hstep]
    have : s1.dups.count e = 0 := by
      rw [hno3]
      simp
    simp [this]

theorem c1_witness :
    wRegA ∈ (reconcileSheet wOracleNoFail [] ([] ++ wRegA :: [wRegB])).creados
    ∧ (reconcileSheet wOracleNoFail [] ([] ++ wRegA :: [wRegB])).creados.filter
        (fun x => x.email == "dup@x.co") = [wRegA]
    ∧ (reconcileSheet wOracleNoFail [] ([] ++ wRegA :: [wRegB])).dups.count "dup@x.co"
        = ([wRegB].filter (fun r => pyLower r.email == pyLower "dup@x.co")).length :=
  c1_in_batch_duplicates wOracleNoFail [] [] [wRegB] wRegA "dup@x.co" rfl (by decide)
    (by simp) rfl (by decide) (by decide)

theorem reconFrom_counts (oracle : CreateOracle) :
    ∀ (rs : List Registro) (s : RecState),
      (reconcileFrom oracle s rs).creados.length + (reconcileFrom oracle s rs).dups.length
        + (reconcileFrom oracle s rs).errsDb.length
      = s.creados.length + s.dups.length + s.errsDb.length + rs.length
  | [], s => by simp [reconcileFrom]
  | r :: rest, s => by
    have ih := reconFrom_counts oracle rest (reconStep oracle s r)
    rw [reconcileFrom, List.foldl_cons,
      show List.foldl (reconStep oracle) (reconStep oracle s r) rest
        = reconcileFrom oracle (reconStep oracle s r) rest from rfl]
    have hstep : (reconStep oracle s r).creados.length + (reconStep oracle s r).dups.length
        + (reconStep oracle s r).errsDb.length
        = s.creados.length + s.dups.length + s.errsDb.length + 1 := by
      unfold reconStep
      cases hf : s.db.find? (fun p => p.email == r.email)
      · cases ho : oracle r
        · simp
          omega
        · simp
          omega
      · simp
        omega
    rw [ih]
    simp only [List.length_cons]
    omega

theorem reconStep_cases (oracle : CreateOracle) (s : RecState) (r : Registro) :
    (reconStep oracle s r = { s with dups := s.dups ++ [r.email] })
    ∨ (reconStep oracle s r = { s with db := s.db ++ [r], creados := s.creados ++ [r] })
    ∨ (∃ msg, oracle r = some msg ∧
        reconStep oracle s r = { s with errsDb := s.errsDb ++ [r.email ++ ": " ++ msg] }) := by
  unfold reconStep
  cases hf : s.db.find? (fun p => p.email == r.email)
  · cases ho : oracle r
    · right; left; rfl
    · right; right; exact ⟨_, rfl, rfl⟩
  · left; rfl

theorem reconFrom_db_growth (oracle : CreateOracle) :
    ∀ (rs : List Registro) (s : RecState),
      ∃ t, (reconcileFrom oracle s rs).db = s.db ++ t
        ∧ (reconcileFrom oracle s rs).creados = s.creados ++ t
  | [], s => ⟨[], by simp [reconcileFrom]⟩
  | r :: rest, s => by
    obtain ⟨t, ht1, ht2⟩ := reconFrom_db_growth oracle rest (reconStep oracle s r)
    have hfold : reconcileFrom oracle s (r :: rest)
        = reconcileFrom oracle (reconStep oracle s r) rest := by
      rw [reconcileFrom, List.foldl_cons]
      rfl
    rcases reconStep_cases oracle s r with hc | hc | ⟨msg, hmsg, hc⟩
    · refine ⟨t, ?_, ?_⟩
      · rw [hfold, ht1, hc]
      · rw [hfold, ht2, hc]
    · refine ⟨r :: t, ?_, ?_⟩
      · rw [hfold, ht1, hc]
        simp
      · rw [hfold, ht2, hc]
        simp
    · refine ⟨t, ?_, ?_⟩
      · rw [hfold, ht1, hc]
      · rw [hfold, ht2, hc]

theorem processSheetResults_db_growth (oracle : CreateOracle) :
    ∀ (results : List (String × (List Registro × List String))) (acc : ImportAcc),
      ∃ t, (results.foldl (importStep oracle) acc).db = acc.db ++ t
        ∧ (results.foldl (importStep oracle) acc).totalCreados = acc.totalCreados ++ t
  | [], acc => ⟨[], by simp⟩
  | entry :: rest, acc => by
    obtain ⟨t, ht1, ht2⟩ :=
      processSheetResults_db_growth oracle rest (importStep oracle acc entry)
    obtain ⟨u, hu1, hu2⟩ :=
      reconFrom_db_growth oracle entry.2.1 ⟨acc.db, [], [], []⟩
    have hstep1 : (importStep oracle acc entry).db = acc.db ++ u := by
      unfold importStep
      simpa [reconcileSheet] using hu1
    have hstep2 : (importStep oracle acc entry).totalCreados
        = acc.totalCreados ++ u := by
      unfold importStep
      have hc : (reconcileSheet oracle acc.db entry.2.1).creados = u := by
        rw [reconcileSheet, hu2]
        simp
      simp [hc]
    refine ⟨u ++ t, ?_, ?_⟩
    · rw [List.foldl_cons, ht1, hstep1, List.append_assoc]
    · rw [List.foldl_cons, ht2, hstep2, List.append_assoc]

/-- C8: a creation failure for an individual candidate (the insert raising
despite the pre-check) is converted into the single per-record error string
`"<email>: <message>"` and the loop continues with the remaining candidates
from that state; every candidate still contributes exactly one of
created/duplicate/error, and on normal completion the committed store is the
initial store plus exactly the records reported as created — already-created
records are preserved, not rolled back. -/
theorem c8_partial_failure (oracle : CreateOracle) (db0 : List Registro)
    (pre post : List Registro) (r : Registro) (msg : String)
    (hfail : oracle r = some msg)
    (hnodup : (reconcileFrom oracle ⟨db0, [], [], []⟩ pre).db.find?
        (fun p => p.email == r.email) = none) :
    (reconcileSheet oracle db0 (pre ++ r :: post) =
      reconcileFrom oracle
        { reconcileFrom oracle ⟨db0, [], [], []⟩ pre with
          errsDb := (reconcileFrom oracle ⟨db0, [], [], []⟩ pre).errsDb
            ++ [r.email ++ ": " ++ msg] } post)
    ∧ ((reconcileSheet oracle db0 (pre ++ r :: post)).creados.length
        + (reconcileSheet oracle db0 (pre ++ r :: post)).dups.length
        + (reconcileSheet oracle db0 (pre ++ r :: post)).errsDb.length
        = (pre ++ r :: post).length)
    ∧ (∀ file names, (importarRegistrosCore oracle file names db0).2
        = db0 ++ (importarRegistrosCore oracle file names db0).1.registros_creados) := by
  refine ⟨?_, ?_, ?_⟩
  · have hsplit : reconcileSheet oracle db0 (pre ++ r :: post) =
        reconcileFrom oracle
          (reconStep oracle (reconcileFrom oracle ⟨db0, [], [], []⟩ pre) r) post := by
      unfold reconcileSheet reconcileFrom
      rw [List.foldl_append, List.foldl_cons]
    rw [hsplit]
    congr 1
    unfold reconStep
    rw [hnodup, hfail]
  · have := reconFrom_counts oracle (pre ++ r :: post) ⟨db0, [], [], []⟩
    unfold reconcileSheet
    rw [this]
    simp
  · intro file names
    unfold importarRegistrosCore
    obtain ⟨t, ht1, ht2⟩ := processSheetResults_db_growth oracle
      (importFromExcelMultipleSheets file names)
      { db := db0, totalCreados := [], totalDups := [], totalErrs := [],
        sheetsProcessed := [] }
    simp only [processSheetResults, buildResponse] at ht1 ht2 ⊢
    rw [ht1, ht2]
    simp only [List.nil_append]
    cases t with
    | nil => simp
    | cons x xs => simp

theorem c8_witness :
    ((reconcileSheet wOracleFailB [] ([wRegC] ++ wRegD :: [])).creados.length
      + (reconcileSheet wOracleFailB [] ([wRegC] ++ wRegD :: [])).dups.length
      + (reconcileSheet wOracleFailB [] ([wRegC] ++ wRegD :: [])).errsDb.length
      = ([wRegC] ++ wRegD :: []).length)
    ∧ (importarRegistrosCore wOracleFailB [] none []).2
      = [] ++ (importarRegistrosCore wOracleFailB [] none []).1.registros_creados :=
  ⟨(c8_partial_failure wOracleFailB [] [wRegC] [] wRegD "boom" (by decide)
      (by decide)).2.1,
   (c8_partial_failure wOracleFailB [] [wRegC] [] wRegD "boom" (by decide)
      (by decide)).2.2 [] none⟩

/-- C9: from the moment the upload is saved to the temporary path, the endpoint
deletes the temporary artifact before returning on every exit path — both when
processing raises (rolling back and answering 500) and when the import
completes with a response — so the temporary file never outlives the request. -/
theorem c9_temp_released (oracle : CreateOracle) (file : ExcelFile)
    (sheetNames : Option (List String)) (db0 : List Registro) (fs0 : TempFS) :
    (∀ msg, importarRegistros oracle file sheetNames db0 (some msg) fs0 =
        (EndpointResult.httpError 500 ("Error al procesar archivo: " ++ msg),
         { tempExists := false }, db0))
    ∧ importarRegistros oracle file sheetNames db0 none fs0 =
        (EndpointResult.ok (importarRegistrosCore oracle file sheetNames db0).1,
         { tempExists := false },
         (importarRegistrosCore oracle file sheetNames db0).2) := by
  constructor
  · intro msg
    rfl
  · rfl

theorem processSheetResults_errs (oracle : CreateOracle) :
    ∀ (results : List (String × (List Registro × List String))) (acc : ImportAcc),
      (results.foldl (importStep oracle) acc).totalErrs
        = acc.totalErrs ++ (sheetErrBlocks oracle acc.db results).flatten
  | [], acc => by simp [sheetErrBlocks]
  | entry :: rest, acc => by
    have ih := processSheetResults_errs oracle rest (importStep oracle acc entry)
    rw [List.foldl_cons, ih]
    have hdb : (importStep oracle acc entry).db
        = (reconcileSheet oracle acc.db entry.2.1).db := rfl
    have herr : (importStep oracle acc entry).totalErrs
        = acc.totalErrs ++ entry.2.2 ++ (reconcileSheet oracle acc.db entry.2.1).errsDb :=
      rfl
    rw [herr, hdb, sheetErrBlocks]
    simp [List.append_assoc]

/-- C10: the response's `errores` list is the first 10 of the accumulated error
strings — which are, sheet by sheet in result order, the sheet's import errors
followed by its per-record persistence errors — while `total_errores` counts
them all, so with more than 10 errors the returned list is a strict prefix of
length 10. -/
theorem c10_error_truncation (oracle : CreateOracle) (file : ExcelFile)
    (sheetNames : Option (List String)) (db0 : List Registro) :
    ((importarRegistrosCore oracle file sheetNames db0).1.errores
      = (processSheetResults oracle (importFromExcelMultipleSheets file sheetNames)
          db0).totalErrs.take 10)
    ∧ ((importarRegistrosCore oracle file sheetNames db0).1.total_errores
      = (processSheetResults oracle (importFromExcelMultipleSheets file sheetNames)
          db0).totalErrs.length)
    ∧ ((processSheetResults oracle (importFromExcelMultipleSheets file sheetNames)
          db0).totalErrs
      = (sheetErrBlocks oracle db0 (importFromExcelMultipleSheets file sheetNames)).flatten)
    ∧ (10 < (processSheetResults oracle (importFromExcelMultipleSheets file sheetNames)
          db0).totalErrs.length →
        (importarRegistrosCore oracle file sheetNames db0).1.errores.length = 10
        ∧ (importarRegistrosCore oracle file sheetNames db0).1.errores
            ≠ (processSheetResults oracle (importFromExcelMultipleSheets file sheetNames)
                db0).totalErrs
        ∧ (processSheetResults oracle (importFromExcelMultipleSheets file sheetNames)
            db0).totalErrs
          = (importarRegistrosCore oracle file sheetNames db0).1.errores
            ++ (processSheetResults oracle (importFromExcelMultipleSheets file sheetNames)
                db0).totalErrs.drop 10) := by
  refine ⟨rfl, rfl, ?_, ?_⟩
  · have h := processSheetResults_errs oracle (importFromExcelMultipleSheets file sheetNames)
      { db := db0, totalCreados := [], totalDups := [], totalErrs := [],
        sheetsProcessed := [] }
    simpa [processSheetResults] using h
  · intro hlen
    refine ⟨?_, ?_, ?_⟩
    · show ((processSheetResults oracle (importFromExcelMultipleSheets file sheetNames)
          db0).totalErrs.take 10).length = 10
      rw [List.length_take]
      omega
    · intro heq
      have hlen2 := congrArg List.length heq
      have hE : (importarRegistrosCore oracle file sheetNames db0).1.errores
          = (processSheetResults oracle (importFromExcelMultipleSheets file sheetNames)
              db0).totalErrs.take 10 := rfl
      rw [hE, List.length_take] at hlen2
      omega
    · show _ = (processSheetResults oracle (importFromExcelMultipleSheets file sheetNames)
          db0).totalErrs.take 10 ++ _
      rw [List.take_append_drop]

set_option maxRecDepth 8000 in
theorem c10_witness :
    (importarRegistrosCore wOracleNoFail wFileC10 none []).1.errores.length = 10
    ∧ (importarRegistrosCore wOracleNoFail wFileC10 none []).1.errores
        ≠ (processSheetResults wOracleNoFail
            (importFromExcelMultipleSheets wFileC10 none) []).totalErrs
    ∧ (processSheetResults wOracleNoFail
        (importFromExcelMultipleSheets wFileC10 none) []).totalErrs
      = (importarRegistrosCore wOracleNoFail wFileC10 none []).1.errores
        ++ (processSheetResults wOracleNoFail
            (importFromExcelMultipleSheets wFileC10 none) []).totalErrs.drop 10 :=
  (c10_error_truncation wOracleNoFail wFileC10 none []).2.2.2 (by decide)

end SOUL
